import Mathlib

/-!
# Verification of the Collada → engine-model container encoder

Shallow embedding of `src/collada-convert.js` (the `ColladaConvert` class, the
CLI argument handling around it, and the `ColladaLighting` module).

Modelling conventions:
* JS `Buffer` bytes are `Nat` values `< 256`; a buffer write sequence is a
  `List Nat` of the bytes written, with explicit offset/bounds tracking
  mirroring Node's `writeUInt16BE`/`writeFloatBE` range checks.
* 32-bit floats handed to `writeFloatBE` are represented by their IEEE-754
  single-precision bit patterns (a `Nat`, taken mod 2^32 when encoded); the
  container code never inspects float values, it only serializes them.
* JS `undefined` for optional values is `Option.none`; JS `NaN` results of
  `parseInt`/`parseFloat` are the `none` of `JSNum := Option ℚ`.
* JS objects used as string-keyed maps are association lists with
  insertion-order iteration and in-place overwrite on key collision
  (the integer-like-key iteration exception of JS does not arise for the
  fixed keys used here).
-/

namespace ColladaExport

/-- Big-endian 2-byte encoding used by `Buffer.writeUInt16BE` (after the
range check has passed, Node stores `value >>> 8` and `value & 0xff`). -/
def be2 (v : Nat) : List Nat := [v / 256 % 256, v % 256]

/-- Big-endian 4-byte encoding used by `Buffer.writeUInt32BE`. -/
def be4u (v : Nat) : List Nat :=
  [v / 16777216 % 256, v / 65536 % 256, v / 256 % 256, v % 256]

/-- Big-endian decoding of a 4-byte list (the reader's view of the
header-length prefix). -/
def readUInt32BE (b : List Nat) : Nat :=
  match b with
  | [a, b1, c, d] => ((a * 256 + b1) * 256 + c) * 256 + d
  | _ => 0

/-- `Buffer.writeFloatBE` stores the 4 bytes of the IEEE-754 single bit
pattern, big-endian.  Floats are modelled by their bit patterns. -/
def encodeFloatBE (v : Nat) : List Nat := be4u (v % 4294967296)

/-- UTF-8 encoding of one unicode scalar value. -/
def utf8EncodeChar (c : Char) : List Nat :=
  let n := c.toNat
  if n < 128 then [n]
  else if n < 2048 then [192 + n / 64, 128 + n % 64]
  else if n < 65536 then [224 + n / 4096, 128 + n / 64 % 64, 128 + n % 64]
  else [240 + n / 262144, 128 + n / 4096 % 64, 128 + n / 64 % 64, 128 + n % 64]

def utf8BytesList : List Char → List Nat
  | [] => []
  | c :: rest => utf8EncodeChar c ++ utf8BytesList rest

/-- UTF-8 bytes of a string, as used by `Buffer.byteLength` /
`buffer.write(string)`. -/
def utf8Bytes (s : String) : List Nat := utf8BytesList s.toList

theorem be2_length (v : Nat) : (be2 v).length = 2 := rfl

theorem be4u_length (v : Nat) : (be4u v).length = 4 := rfl

theorem encodeFloatBE_length (v : Nat) : (encodeFloatBE v).length = 4 := rfl

theorem readUInt32BE_be4u (v : Nat) (h : v < 4294967296) :
    readUInt32BE (be4u v) = v := by
  simp only [be4u, readUInt32BE]
  omega

/-! ## JSON values and `JSON.stringify`

Only the pieces of `JSON.stringify` behaviour that the encoder relies on are
modelled: object keys whose value is `undefined` are dropped by the *caller
model* (`writeData` below builds the field list with absent keys omitted,
matching `JSON.stringify({lights: undefined}) = "{}"`), and the serialized
string's UTF-8 byte length is what `Buffer.byteLength` returns.  JS number
formatting is abbreviated (integers exactly; non-integers in a fixed
rational notation) — no claim depends on the digits of a serialized number.
-/

inductive JVal where
  | jnull : JVal
  | jnum : ℚ → JVal
  | jstr : String → JVal
  | jarr : List JVal → JVal
  | jobj : List (String × JVal) → JVal

/-- String quoting for `JSON.stringify` (escaping quote and backslash). -/
def escapeChar (c : Char) : String :=
  if c = '"' ∨ c = '\\' then String.push "\\" c else String.singleton c

def quoteString (s : String) : String :=
  "\"" ++ String.join (s.toList.map escapeChar) ++ "\""

def jnumToString (q : ℚ) : String :=
  if q.den = 1 then toString q.num else toString q.num ++ "/" ++ toString q.den

mutual

def stringify : JVal → String
  | JVal.jnull => "null"
  | JVal.jnum q => jnumToString q
  | JVal.jstr s => quoteString s
  | JVal.jarr xs => "[" ++ stringifyElems xs ++ "]"
  | JVal.jobj fs => "\x7b" ++ stringifyFields fs ++ "\x7d"

def stringifyElems : List JVal → String
  | [] => ""
  | [x] => stringify x
  | x :: y :: rest => stringify x ++ "," ++ stringifyElems (y :: rest)

def stringifyFields : List (String × JVal) → String
  | [] => ""
  | [(k, v)] => quoteString k ++ ":" ++ stringify v
  | (k, v) :: y :: rest =>
      quoteString k ++ ":" ++ stringify v ++ "," ++ stringifyFields (y :: rest)

end

/-! ## JS numeric string parsing (`parseInt` / `parseFloat`)

`JSNum` is a JS number that may be `NaN` (`none`).  `parseIntJS` models
base-10 `parseInt` on ordinary strings (leading whitespace, optional sign,
leading digit run; `NaN` when no digits).  `parseFloatJS` models `parseFloat`
on plain decimal literals (sign, integer digits, optional fraction; scientific
notation is not exercised by any input considered here). -/

abbrev JSNum := Option ℚ

/-- JS `String.prototype.split` with a single-character separator:
`"a b".split(' ') = ["a","b"]`, `"".split(' ') = [""]`, empty runs between
consecutive separators yield empty strings. -/
def splitCharAux (sep : Char) : List Char → List Char → List String
  | [], acc => [String.mk acc.reverse]
  | c :: rest, acc =>
    if c = sep then String.mk acc.reverse :: splitCharAux sep rest []
    else splitCharAux sep rest (c :: acc)

def jsSplit (s : String) (sep : Char) : List String := splitCharAux sep s.toList []

def digitsVal (cs : List Char) : Nat :=
  cs.foldl (fun a c => a * 10 + (c.toNat - 48)) 0

/-- Sign handling shared by both parsers: returns the sign (as ±1) and the
remaining characters. -/
def splitSign (cs : List Char) : Int × List Char :=
  match cs with
  | '-' :: rest => (-1, rest)
  | '+' :: rest => (1, rest)
  | _ => (1, cs)

def parseIntJS (s : String) : Option Int :=
  let cs := s.toList.dropWhile (fun c => c.isWhitespace)
  let (sign, cs) := splitSign cs
  let ds := cs.takeWhile (fun c => c.isDigit)
  if ds.isEmpty then none else some (sign * (digitsVal ds : Int))

def parseFloatJS (s : String) : JSNum :=
  let cs := s.toList.dropWhile (fun c => c.isWhitespace)
  let (sign, cs) := splitSign cs
  let intDigits := cs.takeWhile (fun c => c.isDigit)
  let rest := cs.dropWhile (fun c => c.isDigit)
  let fracDigits :=
    match rest with
    | '.' :: tl => tl.takeWhile (fun c => c.isDigit)
    | _ => []
  if intDigits.isEmpty ∧ fracDigits.isEmpty then none
  else
    some ((sign : ℚ) *
      ((digitsVal intDigits : ℚ) + (digitsVal fracDigits : ℚ) / 10 ^ fracDigits.length))

/-! ## The `ColladaLighting` module

Direct embedding of `collada-lighting`.  xml2js single-element array wrappers
(`technique_common[0]`, `color[0]`, `falloff_angle[0]`, `$.id`) are collapsed
into plain fields; a missing `point`/`spot` key is `none`. -/

structure PointTechnique where
  color : String
  deriving DecidableEq

structure SpotTechnique where
  color : String
  falloff_angle : String
  deriving DecidableEq

structure TechniqueCommon where
  point : Option PointTechnique
  spot : Option SpotTechnique
  deriving DecidableEq

/-- One `<light>` entry: `$.id` and `technique_common[0]`. -/
structure LightSource where
  id : String
  technique_common : TechniqueCommon
  deriving DecidableEq

/-- The light record built by `addLights`.  `coneAngle = none` means the key
is absent (point light); `some n` is the parsed falloff angle (a `JSNum`,
so `some none` would be a parsed `NaN`). -/
structure Light where
  id : String
  color : List (Option Int)
  type : String
  coneAngle : Option JSNum
  deriving DecidableEq

/-- JS string-keyed object assignment `m[k] = v`: overwrite in place if the
key exists, else append (insertion order). -/
def objSet (m : List (String × Light)) (k : String) (v : Light) :
    List (String × Light) :=
  if m.any (fun p => p.1 = k) then
    m.map (fun p => if p.1 = k then (k, v) else p)
  else m ++ [(k, v)]

/-- One iteration of the `addLights` loop body. -/
def addLight (acc : List (String × Light)) (ld : LightSource) :
    List (String × Light) :=
  let point := ld.technique_common.point
  let spot := ld.technique_common.spot
  -- var light = point || spot; if (!light) continue;
  let lightColor : Option String :=
    match point with
    | some p => some p.color
    | none =>
      match spot with
      | some sp => some sp.color
      | none => none
  match lightColor with
  | none => acc
  | some colorStr =>
    let base : Light :=
      { id := ld.id
        color := (jsSplit colorStr ' ').map parseIntJS
        type := ""
        coneAngle := none }
    let d1 := if point.isSome then { base with type := "point" } else base
    let d2 :=
      match spot with
      | some sp =>
          { d1 with type := "spot", coneAngle := some (parseFloatJS sp.falloff_angle) }
      | none => d1
    objSet acc ld.id d2

/-- `addLights(lightList)`: early-returns on `undefined`, else folds the loop
body over the entries. -/
def addLights (acc : List (String × Light)) (lightList : Option (List LightSource)) :
    List (String × Light) :=
  match lightList with
  | none => acc
  | some l => l.foldl addLight acc

/-- The `ColladaLighting` state after construction: its `lights` mapping. -/
structure ColladaLighting where
  lights : List (String × Light)

/-- `getJSON()`: values in iteration order, `undefined` when the mapping is
empty. -/
def ColladaLighting.getJSON (cl : ColladaLighting) : Option (List Light) :=
  let result := cl.lights.map (fun p => p.2)
  if result.length = 0 then none else some result

/-- `JSON.stringify(NaN) = "null"`. -/
def jsNumToJVal : JSNum → JVal
  | none => JVal.jnull
  | some q => JVal.jnum q

def jsIntToJVal : Option Int → JVal
  | none => JVal.jnull
  | some i => JVal.jnum (i : ℚ)

/-- The JSON shape of a light record, keys in JS insertion order
(`id`, `color`, `type`, then `coneAngle` when present). -/
def Light.toJVal (l : Light) : JVal :=
  JVal.jobj
    ([("id", JVal.jstr l.id), ("color", JVal.jarr (l.color.map jsIntToJVal)),
      ("type", JVal.jstr l.type)] ++
      (match l.coneAngle with
       | none => []
       | some a => [("coneAngle", jsNumToJVal a)]))

/-! ## CLI surface and configuration resolution

`PARAMS` and the unknown-flag check model lines 24–42 of the script; the
`ColladaConvert` constructor's config block models lines 48–76.  A flag's
presence in `otherArgsMap` makes its value the JS `true`; absence reads as
`undefined`.  Both are captured by a `Bool` (present / absent), matching the
truthiness tests `!opts['-skip-binary']` and `opts['-sub-anim']`. -/

def SKIP_BINARY : String := "-skip-binary"
def SUB_ANIM : String := "-sub-anim"

def PARAMS : List String := [SKIP_BINARY, SUB_ANIM]

/-- The `for (var key in otherArgsMap)` unknown-flag check: throws on the
first key not in `PARAMS`.  (Keys of `otherArgsMap` are the distinct
non-positional CLI tokens, in first-occurrence order.) -/
def checkParams (otherArgs : List String) : Except String Unit :=
  match otherArgs.find? (fun k => !PARAMS.contains k) with
  | some k =>
      Except.error ("Unknown param: " ++ k ++ ". Allowed params: " ++
        String.intercalate ", " PARAMS)
  | none => Except.ok ()

/-- Steps of the top-level script, in source order: read the input file
(line 32), check the flags (lines 38–42), parse the XML (line 188), then
construct-and-write (lines 189–191). -/
inductive ScriptStep where
  | readFile : ScriptStep
  | checkFlags : ScriptStep
  | parseXML : ScriptStep
  | convert : ScriptStep
  deriving DecidableEq

/-- The steps the script actually executes for a given flag list: an unknown
flag throws out of the loop before `parser.parseString` is reached. -/
def scriptTrace (otherArgs : List String) : List ScriptStep :=
  [ScriptStep.readFile, ScriptStep.checkFlags] ++
    (match checkParams otherArgs with
     | Except.error _ => []
     | Except.ok _ => [ScriptStep.parseXML, ScriptStep.convert])

/-- Caller-supplied options object (`opts`).  `skipBinary`/`subAnim` model
the presence of the corresponding flag key; the `include*` fields model the
optional explicit overrides (`none` = key absent / `undefined`;
`some b` = the boolean value, of which only `=== false` is acted on). -/
structure Opts where
  skipBinary : Bool := false
  subAnim : Bool := false
  includeGeometry : Option Bool := none
  includeAnimation : Option Bool := none
  includeHierarchy : Option Bool := none
  includeMaterial : Option Bool := none
  includeNormals : Option Bool := none
  includeUV : Option Bool := none
  deriving DecidableEq

/-- The resolved `this.config`. -/
structure Config where
  includeBinary : Bool
  isSubAnimation : Bool
  includeGeometry : Bool
  includeAnimation : Bool
  includeHierarchy : Bool
  includeMaterial : Bool
  includeAttribs : List (String × Bool)
  deriving DecidableEq

def attributes : List String :=
  ["POSITION", "NORMAL", "TEXCOORD0", "TEXCOORD1", "WEIGHT"]

/-- `if (opts.x === false) config.x = false` applied to a derived default. -/
def applyOff (ov : Option Bool) (b : Bool) : Bool :=
  if ov = some false then false else b

/-- The constructor's configuration block (lines 55–74): defaults, derived
flags, then false-only overrides. -/
def resolveConfig (opts : Opts) : Config :=
  let includeBinary := !opts.skipBinary
  let isSubAnimation := opts.subAnim
  { includeBinary := includeBinary
    isSubAnimation := isSubAnimation
    includeGeometry := applyOff opts.includeGeometry (includeBinary && !isSubAnimation)
    includeAnimation := applyOff opts.includeAnimation includeBinary
    includeHierarchy := applyOff opts.includeHierarchy !isSubAnimation
    includeMaterial := applyOff opts.includeMaterial !isSubAnimation
    includeAttribs :=
      attributes.map (fun a =>
        (a, if a = "NORMAL" then applyOff opts.includeNormals true
            else if a = "TEXCOORD0" ∨ a = "TEXCOORD1" then applyOff opts.includeUV true
            else true)) }

/-- The options object actually passed by the CLI driver (lines 189–191):
only the flag keys (plus `directory`) — never any `include*` override. -/
def cliOpts (skipBinary subAnim : Bool) : Opts :=
  { skipBinary := skipBinary, subAnim := subAnim }

/-! ## External segment producers (contract models)

`ColladaGeometry` and `ColladaAnimation` are separate modules not part of
this source; only the fields `writeData` reads are modelled, as opaque data
satisfying (or not) the documented contracts. -/

/-- One geometry entry of `colladaGeometry.geometryData`: `indices` are the
index values passed to `writeUInt16BE` (unvalidated `Nat`s), `vertices`
are float bit patterns passed to `writeFloatBE`. -/
structure GeomSegment where
  indices : List Nat
  vertices : List Nat
  deriving DecidableEq

/-- Modelled from the spec: the geometry producer's surface consumed by
`writeData` — `geometryData`, a declared `byteSize`, and a JSON summary
(`getJSON()`); the module itself is external to this source. -/
structure ColladaGeometry where
  geometryData : List GeomSegment
  byteSize : Nat
  summary : JVal

/-- Modelled from the spec: the animation producer's surface consumed by
`writeData` — the ordered `animationOrder` name list, `getAnimationData`
(per-name float sequences, as bit patterns), a declared `byteSize`, and a
JSON summary (`getJSON(idToNameMap)`). -/
structure ColladaAnimation where
  animationOrder : List String
  animData : String → List Nat
  byteSize : Nat
  summary : JVal

/-- Modelled from the spec: `colladaAnimation.hasAnimation` is true exactly
when the (external) animation module extracted some animation, i.e. when
its ordered name list is nonempty. -/
def ColladaAnimation.hasAnimation (a : ColladaAnimation) : Bool :=
  !a.animationOrder.isEmpty

/-- Declared byte size the geometry contract promises:
`sum of indices.length*2 + vertices.length*4` over all entries. -/
def geomSum : List GeomSegment → Nat
  | [] => 0
  | s :: rest => 2 * s.indices.length + 4 * s.vertices.length + geomSum rest

def animSumList (f : String → List Nat) : List String → Nat
  | [] => 0
  | nm :: rest => 4 * (f nm).length + animSumList f rest

/-- Declared byte size the animation contract promises: 4 bytes per float
over all sequences in `animationOrder`. -/
def animSum (a : ColladaAnimation) : Nat :=
  animSumList a.animData a.animationOrder

/-! ## `writeData`: the container encoder -/

/-- Observable events on the geometry producer during `writeData`:
`prepareForExport()` (line 112) and the `byteSize` read used for the buffer
size (line 138). -/
inductive GeomEvent where
  | prepareForExport : GeomEvent
  | queryByteSize : GeomEvent
  deriving DecidableEq

/-- Errors thrown by Node's checked buffer writes: `indexOverflow` is the
value-range failure of `writeUInt16BE` (a 16-bit index ceiling violation),
`valueOutOfRange` the value check of `writeUInt32BE`, `offsetOutOfRange`
the bounds check of any write. -/
inductive WriteError where
  | indexOverflow : WriteError
  | valueOutOfRange : WriteError
  | offsetOutOfRange : WriteError
  deriving DecidableEq

/-- `writeUInt32BE(value, offset)`: value range check, then bounds check,
then 4 big-endian bytes. -/
def writeUInt32BE (bufSize offset v : Nat) : Except WriteError (List Nat) :=
  if 4294967295 < v then Except.error WriteError.valueOutOfRange
  else if bufSize < offset + 4 then Except.error WriteError.offsetOutOfRange
  else Except.ok (be4u v)

/-- `writeUIntArray(buffer, start, array)`: element-wise `writeUInt16BE` at
`start + i*2`; Node checks the value (throws on `> 0xffff`) before the
offset bound. -/
def writeUIntArray (bufSize start : Nat) : List Nat → Except WriteError (List Nat)
  | [] => Except.ok []
  | v :: rest =>
    if 65535 < v then Except.error WriteError.indexOverflow
    else if bufSize < start + 2 then Except.error WriteError.offsetOutOfRange
    else do
      let tail ← writeUIntArray bufSize (start + 2) rest
      Except.ok (be2 v ++ tail)

/-- `writeFloatArray(buffer, start, array)`: element-wise `writeFloatBE` at
`start + i*4`; any numeric value is accepted, only the offset is checked. -/
def writeFloatArray (bufSize start : Nat) : List Nat → Except WriteError (List Nat)
  | [] => Except.ok []
  | v :: rest =>
    if bufSize < start + 4 then Except.error WriteError.offsetOutOfRange
    else do
      let tail ← writeFloatArray bufSize (start + 4) rest
      Except.ok (encodeFloatBE v ++ tail)

/-- The geometry write loop (lines 152–156): per segment, indices then
vertices, the cursor advancing by the `array.length*2` / `array.length*4`
return values. -/
def writeGeometrySegments (bufSize start : Nat) :
    List GeomSegment → Except WriteError (List Nat)
  | [] => Except.ok []
  | s :: rest => do
    let ib ← writeUIntArray bufSize start s.indices
    let vb ← writeFloatArray bufSize (start + 2 * s.indices.length) s.vertices
    let tail ← writeGeometrySegments bufSize
      (start + 2 * s.indices.length + 4 * s.vertices.length) rest
    Except.ok (ib ++ vb ++ tail)

/-- The animation write loop (lines 159–161). -/
def writeAnimationData (bufSize start : Nat) :
    List (List Nat) → Except WriteError (List Nat)
  | [] => Except.ok []
  | a :: rest => do
    let ab ← writeFloatArray bufSize start a
    let tail ← writeAnimationData bufSize (start + 4 * a.length) rest
    Except.ok (ab ++ tail)

/-- Everything `writeData` determines besides the stream write itself. -/
structure WriteOutput where
  trace : List GeomEvent
  header : List (String × JVal)
  jsonLength : Nat
  bufferSize : Nat
  file : Except WriteError (List Nat)

/-- Line 111–112: `prepareForExport()` mutates the geometry module's state
only when geometry is included; `prep` is that (external) state
transformation. -/
def prepGeom (config : Config) (prep : ColladaGeometry → ColladaGeometry)
    (geometry : ColladaGeometry) : ColladaGeometry :=
  if config.includeGeometry then prep geometry else geometry

/-- Lines 109–130: the `jsonData` object, with `undefined`-valued keys
omitted the way `JSON.stringify` omits them.  `g` is the geometry state
after the conditional `prepareForExport()`. -/
def headerFields (config : Config) (g : ColladaGeometry) (lighting : ColladaLighting)
    (hierarchy : JVal) (animation : ColladaAnimation) : List (String × JVal) :=
  (if config.includeGeometry then [("geometry", g.summary)] else []) ++
  (match lighting.getJSON with
   | none => []
   | some ls => [("lights", JVal.jarr (ls.map Light.toJVal))]) ++
  (if config.includeHierarchy then [("hierarchy", hierarchy)] else []) ++
  (if config.includeAnimation && animation.hasAnimation
   then [("animation", animation.summary)] else [])

/-- Lines 122–130: the `animationData` array of float sequences, pushed in
`animationOrder` order, only when animation is included and present. -/
def animationDataOf (config : Config) (animation : ColladaAnimation) :
    List (List Nat) :=
  if config.includeAnimation && animation.hasAnimation
  then animation.animationOrder.map animation.animData else []

/-- Lines 136–139: `bufferSize = 4 + jsonLength` plus, when binary is
included, the two producers' declared byte sizes. -/
def bufferSizeOf (config : Config) (g : ColladaGeometry)
    (animation : ColladaAnimation) (jsonLength : Nat) : Nat :=
  4 + jsonLength +
    (if config.includeBinary then g.byteSize + animation.byteSize else 0)

/-- The geometry-producer events of one run, in execution order:
`prepareForExport()` at line 112 (iff geometry is included), the `byteSize`
read at line 138 (iff binary is included). -/
def traceOf (config : Config) : List GeomEvent :=
  (if config.includeGeometry then [GeomEvent.prepareForExport] else []) ++
  (if config.includeBinary then [GeomEvent.queryByteSize] else [])

/-- Lines 141–162: the sequential buffer writes.  `buffer.write(jsonString,
4, jsonLength)` is truncated to the buffer's capacity (never in fact, since
`bufferSize ≥ 4 + jsonLength`); the cursor then sits at `4 + jsonLength`,
and after the geometry loop at `4 + jsonLength + geomSum` (the loop adds the
`array.length*2` / `array.length*4` return values). -/
def fileOf (config : Config) (g : ColladaGeometry) (animation : ColladaAnimation)
    (jsonString : String) (animationData : List (List Nat)) :
    Except WriteError (List Nat) :=
  let jsonLength := (utf8Bytes jsonString).length
  let bufferSize := bufferSizeOf config g animation jsonLength
  do
    let w0 ← writeUInt32BE bufferSize 0 jsonLength
    let hb := (utf8Bytes jsonString).take (bufferSize - 4)
    let payload ←
      if config.includeBinary then do
        let gb ← writeGeometrySegments bufferSize (4 + jsonLength) g.geometryData
        let ab ← writeAnimationData bufferSize (4 + jsonLength + geomSum g.geometryData)
          animationData
        Except.ok (gb ++ ab)
      else Except.ok []
    Except.ok (w0 ++ hb ++ payload)

/-- `writeData(outputFile)` (lines 106–165), assembled from the pieces
above in source order. -/
def writeData (config : Config) (prep : ColladaGeometry → ColladaGeometry)
    (geometry : ColladaGeometry) (lighting : ColladaLighting)
    (hierarchy : JVal) (animation : ColladaAnimation) : WriteOutput :=
  let g := prepGeom config prep geometry
  let hf := headerFields config g lighting hierarchy animation
  let jsonString := stringify (JVal.jobj hf)
  let jsonLength := (utf8Bytes jsonString).length
  { trace := traceOf config
    header := hf
    jsonLength := jsonLength
    bufferSize := bufferSizeOf config g animation jsonLength
    file := fileOf config g animation jsonString (animationDataOf config animation) }

/-- `writeStream.write(buffer)` runs only after every buffer write succeeded
(line 163 follows the loops); an exception propagates first, so nothing is
flushed on error. -/
def flushedBytes : Except WriteError (List Nat) → List Nat
  | Except.ok b => b
  | Except.error _ => []

/-! ## Pure descriptions of the successful payloads -/

/-- The bytes a successful `writeUIntArray` produces. -/
def uintBytes : List Nat → List Nat
  | [] => []
  | v :: rest => be2 v ++ uintBytes rest

/-- The bytes a successful `writeFloatArray` produces. -/
def floatBytes : List Nat → List Nat
  | [] => []
  | v :: rest => encodeFloatBE v ++ floatBytes rest

/-- The bytes the geometry loop produces: per segment, indices then
vertices. -/
def geomBytes : List GeomSegment → List Nat
  | [] => []
  | s :: rest => uintBytes s.indices ++ floatBytes s.vertices ++ geomBytes rest

/-- The bytes the animation loop produces over a list of float sequences. -/
def animBytes : List (List Nat) → List Nat
  | [] => []
  | a :: rest => floatBytes a ++ animBytes rest

/-- Actual byte count of a list of float sequences. -/
def animDataSum : List (List Nat) → Nat
  | [] => 0
  | a :: rest => 4 * a.length + animDataSum rest

/-! ## Byte-accounting lemmas -/

theorem uintBytes_length (arr : List Nat) : (uintBytes arr).length = 2 * arr.length := by
  induction arr with
  | nil => rfl
  | cons v rest ih => simp [uintBytes, be2, ih]; omega

theorem floatBytes_length (arr : List Nat) :
    (floatBytes arr).length = 4 * arr.length := by
  induction arr with
  | nil => rfl
  | cons v rest ih => simp [floatBytes, encodeFloatBE, be4u, ih]; omega

theorem geomBytes_length (segs : List GeomSegment) :
    (geomBytes segs).length = geomSum segs := by
  induction segs with
  | nil => rfl
  | cons s rest ih =>
    simp [geomBytes, geomSum, uintBytes_length, floatBytes_length, ih]
    omega

theorem animBytes_length (ad : List (List Nat)) :
    (animBytes ad).length = animDataSum ad := by
  induction ad with
  | nil => rfl
  | cons a rest ih => simp [animBytes, animDataSum, floatBytes_length, ih]

theorem animDataSum_map (f : String → List Nat) (l : List String) :
    animDataSum (l.map f) = animSumList f l := by
  induction l with
  | nil => rfl
  | cons nm rest ih => simp [animDataSum, animSumList, ih]

/-! ## Success and failure of the checked writes -/

theorem writeUIntArray_ok (arr : List Nat) (bufSize : Nat) :
    ∀ start, (∀ v ∈ arr, v ≤ 65535) → start + 2 * arr.length ≤ bufSize →
    writeUIntArray bufSize start arr = Except.ok (uintBytes arr) := by
  induction arr with
  | nil => intro start _ _; rfl
  | cons v rest ih =>
    intro start hall hb
    have hv : v ≤ 65535 := hall v (List.mem_cons_self v rest)
    have h1 : ¬ 65535 < v := by omega
    have h2 : ¬ bufSize < start + 2 := by simp [List.length] at hb; omega
    have ht : writeUIntArray bufSize (start + 2) rest = Except.ok (uintBytes rest) := by
      apply ih (start + 2)
      · intro w hw; exact hall w (List.mem_cons_of_mem v hw)
      · simp [List.length] at hb ⊢; omega
    simp [writeUIntArray, h1, h2, ht, uintBytes, Bind.bind, Except.bind]

theorem writeUIntArray_overflow (arr : List Nat) (bufSize : Nat) :
    ∀ start, start + 2 * arr.length ≤ bufSize → (∃ v ∈ arr, 65535 < v) →
    writeUIntArray bufSize start arr = Except.error WriteError.indexOverflow := by
  induction arr with
  | nil => intro start _ hbad; simp at hbad
  | cons v rest ih =>
    intro start hb hbad
    by_cases hv : 65535 < v
    · simp [writeUIntArray, hv]
    · have h2 : ¬ bufSize < start + 2 := by simp [List.length] at hb; omega
      have hbad' : ∃ w ∈ rest, 65535 < w := by
        rcases hbad with ⟨w, hw, hwv⟩
        rcases List.mem_cons.mp hw with h | h
        · exact absurd (h ▸ hwv) hv
        · exact ⟨w, h, hwv⟩
      have ht := ih (start + 2) (by simp [List.length] at hb ⊢; omega) hbad'
      simp [writeUIntArray, hv, h2, ht, Bind.bind, Except.bind]

theorem writeFloatArray_ok (arr : List Nat) (bufSize : Nat) :
    ∀ start, start + 4 * arr.length ≤ bufSize →
    writeFloatArray bufSize start arr = Except.ok (floatBytes arr) := by
  induction arr with
  | nil => intro start _; rfl
  | cons v rest ih =>
    intro start hb
    have h2 : ¬ bufSize < start + 4 := by simp [List.length] at hb; omega
    have ht : writeFloatArray bufSize (start + 4) rest = Except.ok (floatBytes rest) := by
      apply ih (start + 4); simp [List.length] at hb ⊢; omega
    simp [writeFloatArray, h2, ht, floatBytes, Bind.bind, Except.bind]

theorem writeGeometrySegments_ok (segs : List GeomSegment) (bufSize : Nat) :
    ∀ start, (∀ s ∈ segs, ∀ v ∈ s.indices, v ≤ 65535) →
    start + geomSum segs ≤ bufSize →
    writeGeometrySegments bufSize start segs = Except.ok (geomBytes segs) := by
  induction segs with
  | nil => intro start _ _; rfl
  | cons s rest ih =>
    intro start hall hb
    simp [geomSum] at hb
    have hi : writeUIntArray bufSize start s.indices = Except.ok (uintBytes s.indices) := by
      apply writeUIntArray_ok
      · exact hall s (List.mem_cons_self s rest)
      · omega
    have hv : writeFloatArray bufSize (start + 2 * s.indices.length) s.vertices =
        Except.ok (floatBytes s.vertices) := by
      apply writeFloatArray_ok; omega
    have ht : writeGeometrySegments bufSize
        (start + 2 * s.indices.length + 4 * s.vertices.length) rest =
        Except.ok (geomBytes rest) := by
      apply ih
      · intro t htm; exact hall t (List.mem_cons_of_mem s htm)
      · omega
    simp [writeGeometrySegments, hi, hv, ht, geomBytes, Bind.bind, Except.bind]

theorem writeGeometrySegments_overflow (segs : List GeomSegment) (bufSize : Nat) :
    ∀ start, start + geomSum segs ≤ bufSize →
    (∃ s ∈ segs, ∃ v ∈ s.indices, 65535 < v) →
    writeGeometrySegments bufSize start segs =
      Except.error WriteError.indexOverflow := by
  induction segs with
  | nil => intro start _ hbad; simp at hbad
  | cons s rest ih =>
    intro start hb hbad
    simp [geomSum] at hb
    by_cases hs : ∃ v ∈ s.indices, 65535 < v
    · have hi := writeUIntArray_overflow s.indices bufSize start (by omega) hs
      simp [writeGeometrySegments, hi, Bind.bind, Except.bind]
    · have hallS : ∀ v ∈ s.indices, v ≤ 65535 := by
        intro v hv
        by_contra hlt
        exact hs ⟨v, hv, by omega⟩
      have hi : writeUIntArray bufSize start s.indices = Except.ok (uintBytes s.indices) :=
        writeUIntArray_ok s.indices bufSize start hallS (by omega)
      have hv : writeFloatArray bufSize (start + 2 * s.indices.length) s.vertices =
          Except.ok (floatBytes s.vertices) := writeFloatArray_ok _ _ _ (by omega)
      have hbad' : ∃ t ∈ rest, ∃ v ∈ t.indices, 65535 < v := by
        rcases hbad with ⟨t, htm, hw⟩
        rcases List.mem_cons.mp htm with h | h
        · exact absurd (h ▸ hw) hs
        · exact ⟨t, h, hw⟩
      have ht := ih (start + 2 * s.indices.length + 4 * s.vertices.length)
        (by omega) hbad'
      simp [writeGeometrySegments, hi, hv, ht, Bind.bind, Except.bind]

theorem writeAnimationData_ok (ad : List (List Nat)) (bufSize : Nat) :
    ∀ start, start + animDataSum ad ≤ bufSize →
    writeAnimationData bufSize start ad = Except.ok (animBytes ad) := by
  induction ad with
  | nil => intro start _; rfl
  | cons a rest ih =>
    intro start hb
    simp [animDataSum] at hb
    have ha : writeFloatArray bufSize start a = Except.ok (floatBytes a) :=
      writeFloatArray_ok a bufSize start (by omega)
    have ht : writeAnimationData bufSize (start + 4 * a.length) rest =
        Except.ok (animBytes rest) := ih _ (by omega)
    simp [writeAnimationData, ha, ht, animBytes, Bind.bind, Except.bind]

/-! ## Result of a whole `writeData` buffer fill -/

/-- The float bytes of the animations, one block per `animationOrder` name,
in that order. -/
def animOrderBytes (a : ColladaAnimation) : List Nat :=
  animBytes (a.animationOrder.map a.animData)

theorem animDataSum_animationDataOf_le (config : Config) (anim : ColladaAnimation) :
    animDataSum (animationDataOf config anim) ≤ animSum anim := by
  unfold animationDataOf
  split
  · rw [animDataSum_map]; exact Nat.le_refl _
  · exact Nat.zero_le _

theorem animDataSum_animationDataOf (config : Config) (anim : ColladaAnimation)
    (h : config.includeAnimation = true) :
    animDataSum (animationDataOf config anim) = animSum anim := by
  unfold animationDataOf animSum ColladaAnimation.hasAnimation
  cases ho : anim.animationOrder with
  | nil => simp [h, ho, animSumList, animDataSum]
  | cons nm rest => simp [h, ho, animDataSum, animSumList, animDataSum_map]

theorem animBytes_animationDataOf (config : Config) (anim : ColladaAnimation)
    (h : config.includeAnimation = true) :
    animBytes (animationDataOf config anim) = animOrderBytes anim := by
  unfold animationDataOf animOrderBytes ColladaAnimation.hasAnimation
  cases ho : anim.animationOrder with
  | nil => simp [h, ho, animBytes]
  | cons nm rest => simp [h, ho]

theorem fileOf_ok (config : Config) (g : ColladaGeometry) (anim : ColladaAnimation)
    (jsonString : String) (ad : List (List Nat))
    (hlen : (utf8Bytes jsonString).length ≤ 4294967295)
    (hg : g.byteSize = geomSum g.geometryData)
    (ha : animDataSum ad ≤ anim.byteSize)
    (hidx : ∀ s ∈ g.geometryData, ∀ v ∈ s.indices, v ≤ 65535) :
    fileOf config g anim jsonString ad =
      Except.ok (be4u (utf8Bytes jsonString).length ++ utf8Bytes jsonString ++
        (if config.includeBinary then geomBytes g.geometryData ++ animBytes ad
         else [])) := by
  have h32 : writeUInt32BE (bufferSizeOf config g anim (utf8Bytes jsonString).length) 0
      (utf8Bytes jsonString).length = Except.ok (be4u (utf8Bytes jsonString).length) := by
    unfold writeUInt32BE bufferSizeOf
    rw [if_neg (by omega), if_neg (by omega)]
  have htake : (utf8Bytes jsonString).take
      (bufferSizeOf config g anim (utf8Bytes jsonString).length - 4) =
      utf8Bytes jsonString := by
    apply List.take_of_length_le
    unfold bufferSizeOf
    omega
  cases hib : config.includeBinary with
  | false =>
    simp [fileOf, h32, htake, hib, Bind.bind, Except.bind]
  | true =>
    have hgeom : writeGeometrySegments
        (bufferSizeOf config g anim (utf8Bytes jsonString).length)
        (4 + (utf8Bytes jsonString).length) g.geometryData =
        Except.ok (geomBytes g.geometryData) := by
      apply writeGeometrySegments_ok _ _ _ hidx
      unfold bufferSizeOf
      rw [hib]
      simp only [if_true]
      omega
    have hanim : writeAnimationData
        (bufferSizeOf config g anim (utf8Bytes jsonString).length)
        (4 + (utf8Bytes jsonString).length + geomSum g.geometryData) ad =
        Except.ok (animBytes ad) := by
      apply writeAnimationData_ok
      unfold bufferSizeOf
      rw [hib]
      simp only [if_true]
      omega
    simp [fileOf, h32, htake, hib, hgeom, hanim, Bind.bind, Except.bind]

theorem fileOf_overflow (config : Config) (g : ColladaGeometry)
    (anim : ColladaAnimation) (jsonString : String) (ad : List (List Nat))
    (hib : config.includeBinary = true)
    (hlen : (utf8Bytes jsonString).length ≤ 4294967295)
    (hg : g.byteSize = geomSum g.geometryData)
    (hbad : ∃ s ∈ g.geometryData, ∃ v ∈ s.indices, 65535 < v) :
    fileOf config g anim jsonString ad = Except.error WriteError.indexOverflow := by
  have h32 : writeUInt32BE (bufferSizeOf config g anim (utf8Bytes jsonString).length) 0
      (utf8Bytes jsonString).length = Except.ok (be4u (utf8Bytes jsonString).length) := by
    unfold writeUInt32BE bufferSizeOf
    rw [if_neg (by omega), if_neg (by omega)]
  have hgeom : writeGeometrySegments
      (bufferSizeOf config g anim (utf8Bytes jsonString).length)
      (4 + (utf8Bytes jsonString).length) g.geometryData =
      Except.error WriteError.indexOverflow := by
    apply writeGeometrySegments_overflow _ _ _ _ hbad
    unfold bufferSizeOf
    rw [hib]
    simp only [if_true]
    omega
  simp [fileOf, h32, hib, hgeom, Bind.bind, Except.bind]

theorem exceptBind_ok_inv {α β : Type} {e : Except WriteError α}
    {f : α → Except WriteError β} {b : β}
    (h : (e >>= f) = Except.ok b) : ∃ a, e = Except.ok a ∧ f a = Except.ok b := by
  cases e with
  | error err => simp [Bind.bind, Except.bind] at h
  | ok a => exact ⟨a, rfl, by simpa [Bind.bind, Except.bind] using h⟩

theorem fileOf_ok_inv (config : Config) (g : ColladaGeometry)
    (anim : ColladaAnimation) (jsonString : String) (ad : List (List Nat))
    (bytes : List Nat)
    (h : fileOf config g anim jsonString ad = Except.ok bytes) :
    (utf8Bytes jsonString).length ≤ 4294967295 ∧
    ∃ payload, bytes =
      be4u (utf8Bytes jsonString).length ++ utf8Bytes jsonString ++ payload := by
  simp only [fileOf] at h
  obtain ⟨w0, hA, h2⟩ := exceptBind_ok_inv h
  have hlen : (utf8Bytes jsonString).length ≤ 4294967295 := by
    by_contra hc
    unfold writeUInt32BE at hA
    rw [if_pos (by omega)] at hA
    exact Except.noConfusion hA
  have hw0 : w0 = be4u (utf8Bytes jsonString).length := by
    unfold writeUInt32BE bufferSizeOf at hA
    rw [if_neg (by omega), if_neg (by omega)] at hA
    exact (Except.ok.inj hA).symm
  have htake : (utf8Bytes jsonString).take
      (bufferSizeOf config g anim (utf8Bytes jsonString).length - 4) =
      utf8Bytes jsonString := by
    apply List.take_of_length_le
    unfold bufferSizeOf
    omega
  refine ⟨hlen, ?_⟩
  cases hib : config.includeBinary with
  | false =>
    rw [hib] at h2
    simp only [Bool.false_eq_true, if_false, Bind.bind, Except.bind,
      Except.ok.injEq] at h2
    exact ⟨[], by rw [← h2, hw0, htake]⟩
  | true =>
    rw [hib] at h2
    simp only [if_true] at h2
    obtain ⟨gb, hgb, h4⟩ := exceptBind_ok_inv h2
    obtain ⟨ab, hab, h5⟩ := exceptBind_ok_inv h4
    simp only [Bind.bind, Except.bind, Except.ok.injEq] at h5
    exact ⟨gb ++ ab, by rw [← h5, hw0, htake]⟩

/-! ## `writeData` field projections -/

theorem writeData_trace (config : Config) (prep : ColladaGeometry → ColladaGeometry)
    (geometry : ColladaGeometry) (lighting : ColladaLighting) (hierarchy : JVal)
    (animation : ColladaAnimation) :
    (writeData config prep geometry lighting hierarchy animation).trace =
      traceOf config := rfl

theorem writeData_header (config : Config) (prep : ColladaGeometry → ColladaGeometry)
    (geometry : ColladaGeometry) (lighting : ColladaLighting) (hierarchy : JVal)
    (animation : ColladaAnimation) :
    (writeData config prep geometry lighting hierarchy animation).header =
      headerFields config (prepGeom config prep geometry) lighting hierarchy
        animation := rfl

theorem writeData_jsonLength (config : Config) (prep : ColladaGeometry → ColladaGeometry)
    (geometry : ColladaGeometry) (lighting : ColladaLighting) (hierarchy : JVal)
    (animation : ColladaAnimation) :
    (writeData config prep geometry lighting hierarchy animation).jsonLength =
      (utf8Bytes (stringify (JVal.jobj
        (headerFields config (prepGeom config prep geometry) lighting hierarchy
          animation)))).length := rfl

theorem writeData_bufferSize (config : Config) (prep : ColladaGeometry → ColladaGeometry)
    (geometry : ColladaGeometry) (lighting : ColladaLighting) (hierarchy : JVal)
    (animation : ColladaAnimation) :
    (writeData config prep geometry lighting hierarchy animation).bufferSize =
      bufferSizeOf config (prepGeom config prep geometry) animation
        (writeData config prep geometry lighting hierarchy animation).jsonLength := rfl

theorem writeData_file (config : Config) (prep : ColladaGeometry → ColladaGeometry)
    (geometry : ColladaGeometry) (lighting : ColladaLighting) (hierarchy : JVal)
    (animation : ColladaAnimation) :
    (writeData config prep geometry lighting hierarchy animation).file =
      fileOf config (prepGeom config prep geometry) animation
        (stringify (JVal.jobj (headerFields config (prepGeom config prep geometry)
          lighting hierarchy animation)))
        (animationDataOf config animation) := rfl

/-! ## Example producers used by concrete witnesses -/

def exGeometry : ColladaGeometry := ⟨[⟨[0, 65535], [1]⟩], 8, JVal.jnull⟩

def exBadGeometry : ColladaGeometry := ⟨[⟨[65536], []⟩], 2, JVal.jnull⟩

def exAnimation : ColladaAnimation := ⟨["walk"], fun _ => [3, 4], 8, JVal.jnull⟩

def exLighting : ColladaLighting := ⟨[]⟩

/-! ## The claims -/

/-- Claim C5: for every caller-supplied options object, the resolved
configuration derives `includeGeometry = includeBinary ∧ ¬isSubAnimation`,
`includeAnimation = includeBinary`, `includeHierarchy = ¬isSubAnimation`,
`includeMaterial = ¬isSubAnimation`, applies explicit overrides only when
they are `false` (an override can turn a feature off, never on); hence
`includeGeometry` and `includeAnimation` are true only if `includeBinary`
is, and `isSubAnimation` forces geometry/hierarchy/material off regardless
of overrides. -/
theorem C5_config_resolution (opts : Opts) :
    let c := resolveConfig opts
    c.includeBinary = !opts.skipBinary ∧
    c.isSubAnimation = opts.subAnim ∧
    (opts.includeGeometry ≠ some false →
      c.includeGeometry = (c.includeBinary && !c.isSubAnimation)) ∧
    (opts.includeGeometry = some false → c.includeGeometry = false) ∧
    (opts.includeAnimation ≠ some false → c.includeAnimation = c.includeBinary) ∧
    (opts.includeAnimation = some false → c.includeAnimation = false) ∧
    (opts.includeHierarchy ≠ some false → c.includeHierarchy = !c.isSubAnimation) ∧
    (opts.includeHierarchy = some false → c.includeHierarchy = false) ∧
    (opts.includeMaterial ≠ some false → c.includeMaterial = !c.isSubAnimation) ∧
    (opts.includeMaterial = some false → c.includeMaterial = false) ∧
    (c.includeGeometry = true → c.includeBinary = true) ∧
    (c.includeAnimation = true → c.includeBinary = true) ∧
    (c.isSubAnimation = true →
      c.includeGeometry = false ∧ c.includeHierarchy = false ∧
      c.includeMaterial = false) := by
  obtain ⟨sb, sa, og, oa, oh, om, onn, ou⟩ := opts
  revert sb sa og oa oh om onn ou
  decide

/-- Witness for C5: an explicit `includeGeometry: false` override turns
geometry off in a run that would otherwise include it. -/
theorem C5_witness :
    (resolveConfig ⟨false, false, some false, none, none, none, none, none⟩).includeGeometry
      = false :=
  (C5_config_resolution ⟨false, false, some false, none, none, none, none, none⟩).2.2.2.1
    rfl

/-- Claim C8: any CLI flag outside the recognized set causes a fatal error
naming the offending flag and the allowed set, raised before the
XML-equivalent parse of the input begins. -/
theorem C8_unknown_param (otherArgs : List String) (k : String)
    (hk : k ∈ otherArgs) (hunk : k ∉ PARAMS) :
    ∃ firstBad,
      firstBad ∈ otherArgs ∧ firstBad ∉ PARAMS ∧
      checkParams otherArgs =
        Except.error ("Unknown param: " ++ firstBad ++ ". Allowed params: " ++
          String.intercalate ", " PARAMS) ∧
      ScriptStep.parseXML ∉ scriptTrace otherArgs ∧
      ScriptStep.convert ∉ scriptTrace otherArgs := by
  have hfind : (otherArgs.find? (fun x => !PARAMS.contains x)).isSome := by
    rw [List.find?_isSome]
    exact ⟨k, hk, by simp [hunk]⟩
  obtain ⟨fb, hfb⟩ := Option.isSome_iff_exists.mp hfind
  have hmem : fb ∈ otherArgs := List.mem_of_find?_eq_some hfb
  have hprop : fb ∉ PARAMS := by
    have := List.find?_some hfb
    simpa using this
  have hcp : checkParams otherArgs =
      Except.error ("Unknown param: " ++ fb ++ ". Allowed params: " ++
        String.intercalate ", " PARAMS) := by
    unfold checkParams
    rw [hfb]
  refine ⟨fb, hmem, hprop, hcp, ?_, ?_⟩ <;> simp [scriptTrace, hcp]

/-- Witness for C8 at the concrete flag list `["-bogus"]`. -/
theorem C8_witness :
    ∃ firstBad,
      firstBad ∈ ["-bogus"] ∧ firstBad ∉ PARAMS ∧
      checkParams ["-bogus"] =
        Except.error ("Unknown param: " ++ firstBad ++ ". Allowed params: " ++
          String.intercalate ", " PARAMS) ∧
      ScriptStep.parseXML ∉ scriptTrace ["-bogus"] ∧
      ScriptStep.convert ∉ scriptTrace ["-bogus"] :=
  C8_unknown_param ["-bogus"] "-bogus" (by simp) (by decide)

/-- Claim C7: a light record with neither a `point` nor a `spot` technique
is silently skipped (removing it from the light list leaves the extracted
mapping unchanged), and the `lights` key is present in the JSON header iff
the extracted light mapping is nonempty. -/
theorem C7_light_skipping :
    (∀ (lights : List (String × Light)) (pre post : List LightSource)
       (e : LightSource),
       e.technique_common.point = none → e.technique_common.spot = none →
       addLights lights (some (pre ++ e :: post)) =
         addLights lights (some (pre ++ post))) ∧
    (∀ (config : Config) (prep : ColladaGeometry → ColladaGeometry)
       (geometry : ColladaGeometry) (cl : ColladaLighting) (hierarchy : JVal)
       (animation : ColladaAnimation),
       ("lights" ∈ (writeData config prep geometry cl hierarchy
           animation).header.map Prod.fst) ↔ cl.lights ≠ []) := by
  constructor
  · intro lights pre post e hp hs
    have he : ∀ acc, addLight acc e = acc := by
      intro acc
      simp [addLight, hp, hs]
    simp [addLights, List.foldl_append, List.foldl_cons, he]
  · intro config prep geometry cl hierarchy animation
    rw [writeData_header]
    unfold headerFields ColladaLighting.getJSON
    cases hcl : cl.lights with
    | nil =>
      simp only [hcl, List.map_nil, List.length_nil, if_pos rfl]
      constructor
      · intro hmem
        exfalso
        simp only [List.map_append, List.mem_append] at hmem
        rcases hmem with ((h | h) | h) | h <;>
          · split at h <;> simp_all
      · intro hne; exact absurd rfl hne
    | cons p rest =>
      simp only [hcl, List.map_cons, List.length_cons, Nat.succ_ne_zero, if_neg]
      constructor
      · intro _; exact fun hc => List.noConfusion hc
      · intro _
        simp [List.mem_append]

/-- Witness for C7 at a concrete ambient-style light (no technique) and a
concrete run. -/
theorem C7_witness :
    (addLights [] (some ([] ++ (⟨"amb", ⟨none, none⟩⟩ : LightSource) :: [])) =
      addLights [] (some ([] ++ []))) ∧
    (("lights" ∈ (writeData (resolveConfig (cliOpts true true)) id exGeometry
        exLighting JVal.jnull exAnimation).header.map Prod.fst) ↔
      exLighting.lights ≠ []) :=
  ⟨C7_light_skipping.1 [] [] [] ⟨"amb", ⟨none, none⟩⟩ rfl rfl,
   C7_light_skipping.2 (resolveConfig (cliOpts true true)) id exGeometry
     exLighting JVal.jnull exAnimation⟩

/-- The light record produced by the C9 scenario input. -/
def spotScenarioSource (id : String) : LightSource :=
  ⟨id, ⟨none, some ⟨"255 0 0", "45.0"⟩⟩⟩

theorem parse255 : parseIntJS "255" = some 255 := by decide

theorem parse45 : parseFloatJS "45.0" = some 45 := by
  have h : parseFloatJS "45.0" =
      some (((1 : Int) : ℚ) *
        (((45 : Nat) : ℚ) + ((0 : Nat) : ℚ) / 10 ^ (1 : Nat))) := rfl
  rw [h]
  exact congrArg some (by push_cast; norm_num)

theorem spotScenario_colors :
    (jsSplit "255 0 0" ' ').map parseIntJS = [some 255, some 0, some 0] := by
  decide

/-- Claim C9: an input with one spot light, color `"255 0 0"`, falloff angle
`"45.0"` yields a light mapping with exactly one record — id, type `"spot"`,
color `[255, 0, 0]`, coneAngle `45.0` — and the output header's `lights`
array holds exactly that record. -/
theorem C9_spot_light_scenario (id : String) :
    (ColladaLighting.getJSON ⟨addLights [] (some [spotScenarioSource id])⟩ =
      some [⟨id, [some 255, some 0, some 0], "spot", some (some 45)⟩]) ∧
    ∀ (config : Config) (prep : ColladaGeometry → ColladaGeometry)
      (geometry : ColladaGeometry) (hierarchy : JVal)
      (animation : ColladaAnimation),
      ("lights", JVal.jarr [JVal.jobj
          [("id", JVal.jstr id),
           ("color", JVal.jarr [JVal.jnum 255, JVal.jnum 0, JVal.jnum 0]),
           ("type", JVal.jstr "spot"), ("coneAngle", JVal.jnum 45)]]) ∈
        (writeData config prep geometry
          ⟨addLights [] (some [spotScenarioSource id])⟩
          hierarchy animation).header := by
  have hadd : addLights [] (some [spotScenarioSource id]) =
      [(id, ⟨id, [some 255, some 0, some 0], "spot", some (some 45)⟩)] := by
    simp [addLights, addLight, spotScenarioSource, objSet, spotScenario_colors,
      parse45]
  have hjson : ColladaLighting.getJSON ⟨addLights [] (some [spotScenarioSource id])⟩ =
      some [⟨id, [some 255, some 0, some 0], "spot", some (some 45)⟩] := by
    rw [hadd]
    simp [ColladaLighting.getJSON]
  refine ⟨hjson, ?_⟩
  intro config prep geometry hierarchy animation
  rw [writeData_header]
  unfold headerFields
  rw [hjson]
  have hlight : Light.toJVal ⟨id, [some 255, some 0, some 0], "spot", some (some 45)⟩ =
      JVal.jobj
        [("id", JVal.jstr id),
         ("color", JVal.jarr [JVal.jnum 255, JVal.jnum 0, JVal.jnum 0]),
         ("type", JVal.jstr "spot"), ("coneAngle", JVal.jnum 45)] := by
    simp [Light.toJVal, jsIntToJVal, jsNumToJVal]
  simp [List.mem_append, hlight]

/-- Claim C1: whenever a run produces output, the output begins with a
4-byte big-endian unsigned integer equal to the byte length of the UTF-8
JSON header written immediately after it: reading 4 bytes and then exactly
that many bytes yields the serialized JSON header object. -/
theorem C1_header_length_roundtrip (config : Config)
    (prep : ColladaGeometry → ColladaGeometry) (geometry : ColladaGeometry)
    (cl : ColladaLighting) (hierarchy : JVal) (animation : ColladaAnimation)
    (bytes : List Nat)
    (h : (writeData config prep geometry cl hierarchy animation).file =
      Except.ok bytes) :
    bytes.take 4 =
      be4u (writeData config prep geometry cl hierarchy animation).jsonLength ∧
    readUInt32BE (bytes.take 4) =
      (writeData config prep geometry cl hierarchy animation).jsonLength ∧
    (bytes.drop 4).take
        (writeData config prep geometry cl hierarchy animation).jsonLength =
      utf8Bytes (stringify (JVal.jobj
        (writeData config prep geometry cl hierarchy animation).header)) ∧
    (writeData config prep geometry cl hierarchy animation).jsonLength =
      (utf8Bytes (stringify (JVal.jobj
        (writeData config prep geometry cl hierarchy animation).header))).length := by
  rw [writeData_file] at h
  obtain ⟨hlen, p, hbytes⟩ := fileOf_ok_inv _ _ _ _ _ _ h
  rw [writeData_jsonLength, writeData_header]
  set js := stringify (JVal.jobj (headerFields config (prepGeom config prep geometry)
    cl hierarchy animation)) with hjs
  have htake4 : bytes.take 4 = be4u (utf8Bytes js).length := by
    rw [hbytes, List.append_assoc]
    exact List.take_left' (be4u_length _)
  refine ⟨htake4, ?_, ?_, rfl⟩
  · rw [htake4]
    exact readUInt32BE_be4u _ (by omega)
  · rw [hbytes, List.append_assoc, List.drop_left' (be4u_length _)]
    exact List.take_left' rfl

/-- Witness for C1: a `-skip-binary -sub-anim` run with no lights writes six
bytes — the length prefix `[0,0,0,2]` then the two bytes 123, 125 of the
empty JSON object — and the theorem's conclusions hold there. -/
theorem C1_witness :
    [0, 0, 0, 2, 123, 125].take 4 =
      be4u (writeData (resolveConfig (cliOpts true true)) id exGeometry
        exLighting JVal.jnull exAnimation).jsonLength ∧
    readUInt32BE ([0, 0, 0, 2, 123, 125].take 4) =
      (writeData (resolveConfig (cliOpts true true)) id exGeometry exLighting
        JVal.jnull exAnimation).jsonLength ∧
    ([0, 0, 0, 2, 123, 125].drop 4).take
        (writeData (resolveConfig (cliOpts true true)) id exGeometry exLighting
          JVal.jnull exAnimation).jsonLength =
      utf8Bytes (stringify (JVal.jobj
        (writeData (resolveConfig (cliOpts true true)) id exGeometry exLighting
          JVal.jnull exAnimation).header)) ∧
    (writeData (resolveConfig (cliOpts true true)) id exGeometry exLighting
        JVal.jnull exAnimation).jsonLength =
      (utf8Bytes (stringify (JVal.jobj
        (writeData (resolveConfig (cliOpts true true)) id exGeometry exLighting
          JVal.jnull exAnimation).header))).length :=
  C1_header_length_roundtrip (resolveConfig (cliOpts true true)) id exGeometry
    exLighting JVal.jnull exAnimation [0, 0, 0, 2, 123, 125] (by rfl)

/-- Claim C2: the buffer is allocated with size exactly
`4 + headerLength + (includeBinary ? geometry byteSize + animation byteSize
: 0)`, and — under the producers' byteSize contracts (and the 16-bit index
contract, and the header fitting a uint32) — the sequential header and
payload writes fill it exactly, with no slack. -/
theorem C2_exact_buffer_fill (skipBinary subAnim : Bool)
    (prep : ColladaGeometry → ColladaGeometry) (geometry : ColladaGeometry)
    (cl : ColladaLighting) (hierarchy : JVal) (anim : ColladaAnimation) :
    let config := resolveConfig (cliOpts skipBinary subAnim)
    let g := prepGeom config prep geometry
    let W := writeData config prep geometry cl hierarchy anim
    g.byteSize = geomSum g.geometryData →
    anim.byteSize = animSum anim →
    (∀ s ∈ g.geometryData, ∀ v ∈ s.indices, v ≤ 65535) →
    W.jsonLength ≤ 4294967295 →
    W.bufferSize = 4 + W.jsonLength +
      (if config.includeBinary then g.byteSize + anim.byteSize else 0) ∧
    ∃ bytes, W.file = Except.ok bytes ∧ bytes.length = W.bufferSize := by
  intro config g W hg ha hidx hlen
  have hincl : config.includeAnimation = config.includeBinary := by
    cases skipBinary <;> rfl
  have ha' : animDataSum (animationDataOf config anim) ≤ anim.byteSize := by
    rw [ha]; exact animDataSum_animationDataOf_le config anim
  have hfile : W.file = Except.ok
      (be4u W.jsonLength ++
        utf8Bytes (stringify (JVal.jobj W.header)) ++
        (if config.includeBinary then
          geomBytes g.geometryData ++ animBytes (animationDataOf config anim)
         else [])) := by
    rw [writeData_file]
    exact fileOf_ok config g anim _ _ hlen hg ha' hidx
  refine ⟨rfl, _, hfile, ?_⟩
  simp only [List.length_append]
  rw [writeData_bufferSize]
  unfold bufferSizeOf
  have hgp : prepGeom config prep geometry = g := rfl
  have hWp : writeData config prep geometry cl hierarchy anim = W := rfl
  rw [hgp, hWp]
  have h4 : (be4u W.jsonLength).length = 4 := be4u_length _
  have hutf : (utf8Bytes (stringify (JVal.jobj W.header))).length = W.jsonLength := by
    rw [writeData_jsonLength, writeData_header]
  cases hib : config.includeBinary with
  | false => simp [hib, h4, hutf]
  | true =>
    have hanim : animDataSum (animationDataOf config anim) = animSum anim :=
      animDataSum_animationDataOf config anim (by rw [hincl, hib])
    simp only [hib, if_true, List.length_append, h4, hutf, geomBytes_length,
      animBytes_length, hanim]
    omega

/-- Witness for C2 at a concrete binary run with one geometry segment and
one animation. -/
theorem C2_witness :
    (writeData (resolveConfig (cliOpts false false)) id exGeometry exLighting
        JVal.jnull exAnimation).bufferSize =
      4 + (writeData (resolveConfig (cliOpts false false)) id exGeometry
        exLighting JVal.jnull exAnimation).jsonLength +
      (if (resolveConfig (cliOpts false false)).includeBinary then
        (prepGeom (resolveConfig (cliOpts false false)) id exGeometry).byteSize +
          exAnimation.byteSize
       else 0) ∧
    ∃ bytes,
      (writeData (resolveConfig (cliOpts false false)) id exGeometry exLighting
        JVal.jnull exAnimation).file = Except.ok bytes ∧
      bytes.length = (writeData (resolveConfig (cliOpts false false)) id
        exGeometry exLighting JVal.jnull exAnimation).bufferSize :=
  C2_exact_buffer_fill false false id exGeometry exLighting JVal.jnull
    exAnimation (by decide) (by decide) (by decide) (by decide)

/-- Counterexample to claim C3: in a `-sub-anim` run without `-skip-binary`,
the geometry byte size is used to size the buffer (line 138 runs), yet
`prepareForExport()` is never invoked — not "exactly once beforehand". -/
theorem C3_counterexample :
    GeomEvent.queryByteSize ∈
      (writeData (resolveConfig (cliOpts false true)) id exGeometry exLighting
        JVal.jnull exAnimation).trace ∧
    (writeData (resolveConfig (cliOpts false true)) id exGeometry exLighting
        JVal.jnull exAnimation).trace.count GeomEvent.prepareForExport = 0 := by
  decide

/-- Amended claim C3: whenever geometry is included, `prepareForExport()`
runs exactly once, before the `byteSize` query; the byte size is used iff
binary is included; and when geometry is not included (a sub-animation run),
`prepareForExport()` never runs — even though the byte size may still be
used. -/
theorem C3_prepare_once_when_geometry (skipBinary subAnim : Bool)
    (prep : ColladaGeometry → ColladaGeometry) (geometry : ColladaGeometry)
    (cl : ColladaLighting) (hierarchy : JVal) (anim : ColladaAnimation) :
    let config := resolveConfig (cliOpts skipBinary subAnim)
    let W := writeData config prep geometry cl hierarchy anim
    (config.includeGeometry = true →
      W.trace = [GeomEvent.prepareForExport, GeomEvent.queryByteSize]) ∧
    (GeomEvent.queryByteSize ∈ W.trace ↔ config.includeBinary = true) ∧
    (config.includeGeometry = false →
      W.trace.count GeomEvent.prepareForExport = 0) := by
  intro config W
  have hW : W.trace = traceOf config := writeData_trace config prep geometry
    cl hierarchy anim
  rw [hW]
  cases skipBinary <;> cases subAnim <;> decide

/-- Witness for the amended C3 at a plain binary run. -/
theorem C3_witness :
    (writeData (resolveConfig (cliOpts false false)) id exGeometry exLighting
      JVal.jnull exAnimation).trace =
      [GeomEvent.prepareForExport, GeomEvent.queryByteSize] :=
  (C3_prepare_once_when_geometry false false id exGeometry exLighting
    JVal.jnull exAnimation).1 (by decide)

/-- Claim C4: when writing the binary payload, an index value of exactly
65535 is accepted; any index of 65536 or more makes the run fail with the
index-overflow error, and no bytes have been flushed to the output file
when it is raised. -/
theorem C4_index_overflow_boundary (subAnim : Bool)
    (prep : ColladaGeometry → ColladaGeometry) (geometry : ColladaGeometry)
    (cl : ColladaLighting) (hierarchy : JVal) (anim : ColladaAnimation) :
    let config := resolveConfig (cliOpts false subAnim)
    let g := prepGeom config prep geometry
    let W := writeData config prep geometry cl hierarchy anim
    g.byteSize = geomSum g.geometryData →
    anim.byteSize = animSum anim →
    W.jsonLength ≤ 4294967295 →
    ((∀ s ∈ g.geometryData, ∀ v ∈ s.indices, v ≤ 65535) →
      ∃ bytes, W.file = Except.ok bytes) ∧
    ((∃ s ∈ g.geometryData, ∃ v ∈ s.indices, 65536 ≤ v) →
      W.file = Except.error WriteError.indexOverflow ∧
      flushedBytes W.file = []) := by
  intro config g W hg ha hlen
  have ha' : animDataSum (animationDataOf config anim) ≤ anim.byteSize := by
    rw [ha]; exact animDataSum_animationDataOf_le config anim
  constructor
  · intro hidx
    exact ⟨_, by rw [writeData_file]; exact fileOf_ok config g anim _ _ hlen hg ha' hidx⟩
  · intro hbad
    have hbad' : ∃ s ∈ g.geometryData, ∃ v ∈ s.indices, 65535 < v := by
      obtain ⟨s, hs, v, hv, hle⟩ := hbad
      exact ⟨s, hs, v, hv, by omega⟩
    have herr : W.file = Except.error WriteError.indexOverflow := by
      rw [writeData_file]
      exact fileOf_overflow config g anim _ _ rfl hlen hg hbad'
    exact ⟨herr, by rw [herr]; rfl⟩

/-- Witness for C4: a segment whose only index is 65535 encodes fine, and a
segment containing 65536 aborts with the overflow error and nothing
flushed. -/
theorem C4_witness :
    (∃ bytes,
      (writeData (resolveConfig (cliOpts false false)) id exGeometry exLighting
        JVal.jnull exAnimation).file = Except.ok bytes) ∧
    ((writeData (resolveConfig (cliOpts false false)) id exBadGeometry
        exLighting JVal.jnull exAnimation).file =
      Except.error WriteError.indexOverflow ∧
     flushedBytes (writeData (resolveConfig (cliOpts false false)) id
        exBadGeometry exLighting JVal.jnull exAnimation).file = []) :=
  ⟨(C4_index_overflow_boundary false id exGeometry exLighting JVal.jnull
      exAnimation (by decide) (by decide) (by decide)).1 (by decide),
   (C4_index_overflow_boundary false id exBadGeometry exLighting JVal.jnull
      exAnimation (by decide) (by decide) (by decide)).2 (by decide)⟩

/-- Claim C6: in a binary run the per-animation float sequences appear after
all geometry segments, in exactly `animationOrder` order, each written as
consecutive big-endian 32-bit floats. -/
theorem C6_animation_payload_order (subAnim : Bool)
    (prep : ColladaGeometry → ColladaGeometry) (geometry : ColladaGeometry)
    (cl : ColladaLighting) (hierarchy : JVal) (anim : ColladaAnimation) :
    let config := resolveConfig (cliOpts false subAnim)
    let g := prepGeom config prep geometry
    let W := writeData config prep geometry cl hierarchy anim
    g.byteSize = geomSum g.geometryData →
    anim.byteSize = animSum anim →
    (∀ s ∈ g.geometryData, ∀ v ∈ s.indices, v ≤ 65535) →
    W.jsonLength ≤ 4294967295 →
    W.file = Except.ok
      (be4u W.jsonLength ++ utf8Bytes (stringify (JVal.jobj W.header)) ++
        (geomBytes g.geometryData ++
          animBytes (anim.animationOrder.map anim.animData))) := by
  intro config g W hg ha hidx hlen
  have ha' : animDataSum (animationDataOf config anim) ≤ anim.byteSize := by
    rw [ha]; exact animDataSum_animationDataOf_le config anim
  have hf : W.file = Except.ok
      (be4u W.jsonLength ++ utf8Bytes (stringify (JVal.jobj W.header)) ++
        (if config.includeBinary then
          geomBytes g.geometryData ++ animBytes (animationDataOf config anim)
         else [])) := by
    rw [writeData_file]
    exact fileOf_ok config g anim _ _ hlen hg ha' hidx
  rw [hf]
  have hib : config.includeBinary = true := rfl
  have hordered : animBytes (animationDataOf config anim) =
      animBytes (anim.animationOrder.map anim.animData) :=
    animBytes_animationDataOf config anim rfl
  rw [hib] at hf ⊢
  simp only [if_true, hordered]

/-- Witness for C6 at a concrete binary run. -/
theorem C6_witness :
    (writeData (resolveConfig (cliOpts false false)) id exGeometry exLighting
      JVal.jnull exAnimation).file = Except.ok
      (be4u (writeData (resolveConfig (cliOpts false false)) id exGeometry
          exLighting JVal.jnull exAnimation).jsonLength ++
        utf8Bytes (stringify (JVal.jobj
          (writeData (resolveConfig (cliOpts false false)) id exGeometry
            exLighting JVal.jnull exAnimation).header)) ++
        (geomBytes (prepGeom (resolveConfig (cliOpts false false)) id
            exGeometry).geometryData ++
          animBytes (exAnimation.animationOrder.map exAnimation.animData))) :=
  C6_animation_payload_order false id exGeometry exLighting JVal.jnull
    exAnimation (by decide) (by decide) (by decide) (by decide)

/-- Claim C10: with binary included but geometry excluded (a sub-animation
run), the payload still contains every geometry segment's index and vertex
arrays and the buffer size still includes the geometry producer's byteSize,
even though the header has no `geometry` key — the payload loop is gated
only on `includeBinary`. -/
theorem C10_geometry_payload_without_header (prep : ColladaGeometry → ColladaGeometry)
    (geometry : ColladaGeometry) (cl : ColladaLighting) (hierarchy : JVal)
    (anim : ColladaAnimation) :
    let config := resolveConfig (cliOpts false true)
    let W := writeData config prep geometry cl hierarchy anim
    geometry.byteSize = geomSum geometry.geometryData →
    anim.byteSize = animSum anim →
    (∀ s ∈ geometry.geometryData, ∀ v ∈ s.indices, v ≤ 65535) →
    W.jsonLength ≤ 4294967295 →
    config.includeBinary = true ∧
    config.includeGeometry = false ∧
    "geometry" ∉ W.header.map Prod.fst ∧
    W.bufferSize = 4 + W.jsonLength + geometry.byteSize + anim.byteSize ∧
    W.file = Except.ok
      (be4u W.jsonLength ++ utf8Bytes (stringify (JVal.jobj W.header)) ++
        (geomBytes geometry.geometryData ++
          animBytes (anim.animationOrder.map anim.animData))) := by
  intro config W hg ha hidx hlen
  have hgp : prepGeom config prep geometry = geometry := rfl
  have ha' : animDataSum (animationDataOf config anim) ≤ anim.byteSize := by
    rw [ha]; exact animDataSum_animationDataOf_le config anim
  refine ⟨rfl, rfl, ?_, ?_, ?_⟩
  · rw [writeData_header]
    unfold headerFields
    intro hmem
    have hng : config.includeGeometry = false := rfl
    have hnh : config.includeHierarchy = false := rfl
    rw [hng, hnh] at hmem
    simp only [List.map_append, List.mem_append] at hmem
    rcases hmem with ((h | h) | h) | h
    · simp at h
    · cases hjs : ColladaLighting.getJSON cl <;> rw [hjs] at h <;> simp at h
    · simp at h
    · split at h <;> simp at h
  · rw [writeData_bufferSize]
    unfold bufferSizeOf
    rw [hgp]
    have hWp : writeData config prep geometry cl hierarchy anim = W := rfl
    rw [hWp]
    simp only [show config.includeBinary = true from rfl, if_true]
    omega
  · have hf : W.file = Except.ok
        (be4u W.jsonLength ++ utf8Bytes (stringify (JVal.jobj W.header)) ++
          (if config.includeBinary then
            geomBytes (prepGeom config prep geometry).geometryData ++
              animBytes (animationDataOf config anim)
           else [])) := by
      rw [writeData_file]
      exact fileOf_ok config (prepGeom config prep geometry) anim _ _ hlen
        (by rw [hgp]; exact hg) ha' (by rw [hgp]; exact hidx)
    rw [hf, hgp]
    have hordered : animBytes (animationDataOf config anim) =
        animBytes (anim.animationOrder.map anim.animData) :=
      animBytes_animationDataOf config anim rfl
    simp only [show config.includeBinary = true from rfl, if_true, hordered]

/-- Witness for C10 at a concrete `-sub-anim` binary run. -/
theorem C10_witness :
    (resolveConfig (cliOpts false true)).includeBinary = true ∧
    (resolveConfig (cliOpts false true)).includeGeometry = false ∧
    "geometry" ∉ (writeData (resolveConfig (cliOpts false true)) id exGeometry
      exLighting JVal.jnull exAnimation).header.map Prod.fst ∧
    (writeData (resolveConfig (cliOpts false true)) id exGeometry exLighting
        JVal.jnull exAnimation).bufferSize =
      4 + (writeData (resolveConfig (cliOpts false true)) id exGeometry
        exLighting JVal.jnull exAnimation).jsonLength +
        exGeometry.byteSize + exAnimation.byteSize ∧
    (writeData (resolveConfig (cliOpts false true)) id exGeometry exLighting
        JVal.jnull exAnimation).file = Except.ok
      (be4u (writeData (resolveConfig (cliOpts false true)) id exGeometry
          exLighting JVal.jnull exAnimation).jsonLength ++
        utf8Bytes (stringify (JVal.jobj
          (writeData (resolveConfig (cliOpts false true)) id exGeometry
            exLighting JVal.jnull exAnimation).header)) ++
        (geomBytes exGeometry.geometryData ++
          animBytes (exAnimation.animationOrder.map exAnimation.animData))) :=
  C10_geometry_payload_without_header id exGeometry exLighting JVal.jnull
    exAnimation (by decide) (by decide) (by decide) (by decide)

end ColladaExport
